import Mathlib

/-!
Verification of the Cook-Torrance PBR lighting repository.

The GLSL shader code (two independent fragment-shader paths in
`src/js/camera.js`) and the planar-shadow-matrix builder
(`src/js/renderer.js`) are shallowly embedded over the exact reals.
GLSL `float` arithmetic is modelled by `ℝ`; every GLSL division is a
total real division and the theorems establish that each divisor the
shaders produce is nonzero where the shaders rely on it.  GLSL `vec3`
becomes the structure `Vec3` below, GLSL built-ins (`clamp`, `mix`,
`smoothstep`, `normalize`, `length`, `dot`, `cross`) are defined with
their specified semantics.  Shader uniforms become leading explicit
arguments of the embedded functions; texture sampling of the shadow
map becomes an arbitrary function `ℝ → ℝ → ℝ` supplied as a parameter.
-/

noncomputable section

/-- GLSL `vec3`: three `float` components, modelled over `ℝ`. -/
@[ext]
structure Vec3 where
  x : ℝ
  y : ℝ
  z : ℝ

namespace Vec3

instance : Zero Vec3 := ⟨⟨0, 0, 0⟩⟩
instance : Add Vec3 := ⟨fun a b => ⟨a.x + b.x, a.y + b.y, a.z + b.z⟩⟩
instance : Neg Vec3 := ⟨fun a => ⟨-a.x, -a.y, -a.z⟩⟩
instance : Sub Vec3 := ⟨fun a b => ⟨a.x - b.x, a.y - b.y, a.z - b.z⟩⟩

/-- GLSL componentwise `vec3 * vec3` (Hadamard product). -/
instance : Mul Vec3 := ⟨fun a b => ⟨a.x * b.x, a.y * b.y, a.z * b.z⟩⟩

/-- GLSL `float * vec3`. -/
instance : SMul ℝ Vec3 := ⟨fun s a => ⟨s * a.x, s * a.y, s * a.z⟩⟩

/-- GLSL `vec3 / float`. -/
instance : HDiv Vec3 ℝ Vec3 := ⟨fun a s => ⟨a.x / s, a.y / s, a.z / s⟩⟩

instance : AddCommMonoid Vec3 where
  add_assoc a b c := by ext <;> apply add_assoc
  zero_add a := by ext <;> apply zero_add
  add_zero a := by ext <;> apply add_zero
  add_comm a b := by ext <;> apply add_comm
  nsmul := nsmulRec

instance : Module ℝ Vec3 where
  one_smul a := by ext <;> apply one_mul
  mul_smul r s a := by ext <;> apply mul_assoc
  smul_zero r := by ext <;> apply mul_zero
  smul_add r a b := by ext <;> apply mul_add
  add_smul r s a := by ext <;> apply add_mul
  zero_smul a := by ext <;> apply zero_mul

/-- GLSL `vec3(s)`: a vector with all three components equal. -/
def splat (s : ℝ) : Vec3 := ⟨s, s, s⟩

/-- GLSL `dot(a, b)`. -/
def dot (a b : Vec3) : ℝ := a.x * b.x + a.y * b.y + a.z * b.z

/-- GLSL `cross(a, b)`. -/
def cross (a b : Vec3) : Vec3 :=
  ⟨a.y * b.z - a.z * b.y, a.z * b.x - a.x * b.z, a.x * b.y - a.y * b.x⟩

/-- GLSL `length(v) = sqrt(dot(v, v))`. -/
def length (v : Vec3) : ℝ := Real.sqrt (dot v v)

/-- GLSL `normalize(v) = v / length(v)`. -/
def normalize (v : Vec3) : Vec3 := v / length v

end Vec3

/-- GLSL `vec4`: used for light-space positions. -/
@[ext]
structure Vec4 where
  x : ℝ
  y : ℝ
  z : ℝ
  w : ℝ

/-- GLSL `clamp(x, lo, hi) = min(max(x, lo), hi)`. -/
def clampR (x lo hi : ℝ) : ℝ := min (max x lo) hi

/-- GLSL `mix(a, b, t) = a*(1-t) + b*t` on floats. -/
def mixR (a b t : ℝ) : ℝ := a * (1 - t) + b * t

/-- GLSL `mix(a, b, t)` on `vec3` with a scalar interpolant. -/
def mixV (a b : Vec3) (t : ℝ) : Vec3 := (1 - t) • a + t • b

/-- GLSL `smoothstep(e0, e1, x)`: clamp the normalized position of `x`
between the edges to `[0,1]`, then apply the cubic `t*t*(3-2t)`. -/
def smoothstep (e0 e1 x : ℝ) : ℝ :=
  (fun t => t * t * (3 - 2 * t)) (clampR ((x - e0) / (e1 - e0)) 0 1)

/-- All three components lie in `[0, 1]` (valid albedo / Fresnel range). -/
def InRange01 (v : Vec3) : Prop :=
  0 ≤ v.x ∧ v.x ≤ 1 ∧ 0 ≤ v.y ∧ v.y ≤ 1 ∧ 0 ≤ v.z ∧ v.z ≤ 1

/-- All three components are non-negative. -/
def NonnegV (v : Vec3) : Prop := 0 ≤ v.x ∧ 0 ≤ v.y ∧ 0 ≤ v.z

/-!
## First rendering path: `fragmentShader` in `src/js/camera.js`

Uniforms used by each function are passed as leading arguments.
-/

namespace FragmentShader

/-- The divisor of `D_GGX` (`src/js/camera.js` lines 308-313):
`denom = (NdotH*NdotH)*(a2-1.0)+1.0; denom = 3.14159265*denom*denom;`
guarded by `max(0.0001, denom)`. -/
def D_GGX_div (NdotH alpha : ℝ) : ℝ :=
  max 0.0001
    (3.14159265 * ((NdotH * NdotH) * (alpha * alpha - 1) + 1) *
      ((NdotH * NdotH) * (alpha * alpha - 1) + 1))

/-- GGX normal distribution `D_GGX(NdotH, alpha) = a2 / max(0.0001, denom)`. -/
def D_GGX (NdotH alpha : ℝ) : ℝ :=
  alpha * alpha / D_GGX_div NdotH alpha

/-- Schlick-GGX single-direction geometry term
(`src/js/camera.js` lines 329-331). -/
def G_SchlickGGX (NdotV k : ℝ) : ℝ := NdotV / (NdotV * (1 - k) + k)

/-- Smith geometry term (`src/js/camera.js` lines 333-338):
`k = (roughness + 1)^2 / 8` computed from this function's third argument. -/
def G_Smith (NdotV NdotL roughness : ℝ) : ℝ :=
  G_SchlickGGX NdotV ((roughness + 1) * (roughness + 1) / 8) *
    G_SchlickGGX NdotL ((roughness + 1) * (roughness + 1) / 8)

/-- Fresnel-Schlick term (`src/js/camera.js` lines 352-354):
`F0 + (1.0 - F0) * pow(1.0 - cosTheta, 5.0)`. -/
def fresnelSchlick (cosTheta : ℝ) (F0 : Vec3) : Vec3 :=
  F0 + (1 - cosTheta) ^ 5 • (Vec3.splat 1 - F0)

/-- Diffuse coefficient (`src/js/camera.js` line 394):
`kD = (vec3(1.0) - kS) * (1.0 - uMetallic)`. -/
def kD (kS : Vec3) (uMetallic : ℝ) : Vec3 :=
  (Vec3.splat 1 - kS) * Vec3.splat (1 - uMetallic)

/-- `evaluateBRDF` (`src/js/camera.js` lines 367-401).  The uniforms
`uAlbedo`, `uMetallic`, `uRoughness` are the first three arguments. -/
def evaluateBRDF (uAlbedo : Vec3) (uMetallic uRoughness : ℝ)
    (N V L radiance : Vec3) : Vec3 :=
  let H := Vec3.normalize (V + L)
  let NdotL := clampR (Vec3.dot N L) 0 1
  let NdotV := clampR (Vec3.dot N V) 0 1
  let NdotH := clampR (Vec3.dot N H) 0 1
  let VdotH := clampR (Vec3.dot V H) 0 1
  let alpha := max 0.001 (uRoughness * uRoughness)
  let D := D_GGX NdotH alpha
  let G := G_Smith NdotV NdotL alpha
  let F0 := mixV (Vec3.splat 0.04) uAlbedo uMetallic
  let F := fresnelSchlick VdotH F0
  let denom := max 0.001 (4 * NdotV * NdotL)
  let specular := ((D * G) • F) / denom
  let kDv := kD F uMetallic
  let diffuse := (kDv * uAlbedo) / (3.14159265 : ℝ)
  NdotL • ((diffuse + specular) * radiance)

/-- `spotAttenuation` (`src/js/camera.js` lines 410-416):
`smoothstep(edge, edge + softness, dot(normalize(-dir), L))` where
`edge = uSpotAngle` and `softness = uSpotSoftness`. -/
def spotAttenuation (uSpotAngle uSpotSoftness : ℝ) (L dir : Vec3) : ℝ :=
  smoothstep uSpotAngle (uSpotAngle + uSpotSoftness)
    (Vec3.dot (Vec3.normalize (-dir)) L)

/-- `basisFromDir` (`src/js/camera.js` lines 426-431); the two `out`
parameters become the returned pair `(t, b)`. -/
def basisFromDir (n : Vec3) : Vec3 × Vec3 :=
  let up := if |n.y| < 0.999 then Vec3.mk 0 1 0 else Vec3.mk 1 0 0
  let t := Vec3.normalize (Vec3.cross up n)
  (t, Vec3.cross n t)

/-- One iteration of the area-light sampling loop of `computeLighting`
(`src/js/camera.js` lines 478-501), for grid indices `ix, iy`.  The
tangent basis `t, b` and the light normal are computed by the caller
outside the loop, exactly as in the source. -/
def areaSampleTerm (uLightPos uLightColor : Vec3) (uLightIntensity : ℝ)
    (uAreaSize : ℝ × ℝ) (uAlbedo : Vec3) (uMetallic uRoughness : ℝ)
    (vWorldPos N V lightNormal t b : Vec3) (ix iy : ℕ) : Vec3 :=
  let u := ((ix : ℝ) / 7) * 2 - 1
  let v := ((iy : ℝ) / 7) * 2 - 1
  let samplePos := uLightPos + (u * (uAreaSize.1 * 0.5)) • t +
    (v * (uAreaSize.2 * 0.5)) • b
  let lightVec := samplePos - vWorldPos
  let dist := max 0.001 (Vec3.length lightVec)
  let L := lightVec / dist
  let cosTheta := Vec3.dot lightNormal (-L)
  if 0 < cosTheta then
    evaluateBRDF uAlbedo uMetallic uRoughness N V L
      ((uLightIntensity * (cosTheta / (dist * dist))) • uLightColor)
  else 0

/-- The area-light branch of `computeLighting` (`src/js/camera.js`
lines 469-505): the 8x8 nested `for` loop accumulating samples,
followed by `result /= float(gridSize * gridSize)`. -/
def areaLightResult (uLightPos uLightDir uLightColor : Vec3)
    (uLightIntensity : ℝ) (uAreaSize : ℝ × ℝ) (uAlbedo : Vec3)
    (uMetallic uRoughness : ℝ) (vWorldPos N V : Vec3) : Vec3 :=
  let lightNormal := Vec3.normalize (-uLightDir)
  let tb := basisFromDir lightNormal
  let acc := (List.range 8).foldl (fun acc ix =>
    (List.range 8).foldl (fun acc2 iy =>
      acc2 + areaSampleTerm uLightPos uLightColor uLightIntensity uAreaSize
        uAlbedo uMetallic uRoughness vWorldPos N V lightNormal tb.1 tb.2 ix iy)
      acc) (0 : Vec3)
  acc / (64 : ℝ)

/-- `computeLighting` (`src/js/camera.js` lines 443-511): dispatch on
`uLightType`, then add the ambient term `0.03 * uAlbedo`. -/
def computeLighting (uLightType : ℤ) (uLightPos uLightDir uLightColor : Vec3)
    (uLightIntensity uSpotAngle uSpotSoftness : ℝ) (uAreaSize : ℝ × ℝ)
    (uAlbedo : Vec3) (uMetallic uRoughness : ℝ) (vWorldPos N V : Vec3) : Vec3 :=
  let result :=
    if uLightType = 0 then
      let lightVec := uLightPos - vWorldPos
      let dist := max 0.001 (Vec3.length lightVec)
      let L := lightVec / dist
      evaluateBRDF uAlbedo uMetallic uRoughness N V L
        ((uLightIntensity * (1 / (dist * dist))) • uLightColor)
    else if uLightType = 1 then
      evaluateBRDF uAlbedo uMetallic uRoughness N V (Vec3.normalize (-uLightDir))
        (uLightIntensity • uLightColor)
    else if uLightType = 2 then
      let lightVec := uLightPos - vWorldPos
      let dist := max 0.001 (Vec3.length lightVec)
      let L := lightVec / dist
      evaluateBRDF uAlbedo uMetallic uRoughness N V L
        ((uLightIntensity *
          (spotAttenuation uSpotAngle uSpotSoftness L uLightDir *
            (1 / (dist * dist)))) • uLightColor)
    else
      areaLightResult uLightPos uLightDir uLightColor uLightIntensity uAreaSize
        uAlbedo uMetallic uRoughness vWorldPos N V
  (0.03 : ℝ) • uAlbedo + result

end FragmentShader

/-!
## Second rendering path: `fragmentShaderSource` in `src/js/camera.js`
-/

namespace FragmentShaderSource

/-- Fresnel-Schlick term (`src/js/camera.js` lines 727-730):
`F0 + (1.0 - F0) * pow(clamp(1.0 - cosTheta, 0.0, 1.0), 5.0)`. -/
def fresnelSchlick (cosTheta : ℝ) (F0 : Vec3) : Vec3 :=
  F0 + clampR (1 - cosTheta) 0 1 ^ 5 • (Vec3.splat 1 - F0)

/-- The divisor of `distributionGGX` (`src/js/camera.js` lines 744-755):
`denom = (NdotH2 * (a2 - 1.0) + 1.0); denom = PI * denom * denom;`
guarded by `max(denom, 0.0001)`, with `a = roughness*roughness`,
`a2 = a*a` and `NdotH = max(dot(N, H), 0.0)`. -/
def distributionGGX_div (N H : Vec3) (roughness : ℝ) : ℝ :=
  max
    (3.14159265359 *
      ((max (Vec3.dot N H) 0 * max (Vec3.dot N H) 0) *
        ((roughness * roughness) * (roughness * roughness) - 1) + 1) *
      ((max (Vec3.dot N H) 0 * max (Vec3.dot N H) 0) *
        ((roughness * roughness) * (roughness * roughness) - 1) + 1))
    0.0001

/-- GGX distribution of the second path: `a2 / max(denom, 0.0001)`;
note the squared roughness `a = roughness * roughness` is used without
any lower clamp. -/
def distributionGGX (N H : Vec3) (roughness : ℝ) : ℝ :=
  (roughness * roughness) * (roughness * roughness) /
    distributionGGX_div N H roughness

/-- A variant of `distributionGGX` written from the claim/spec wording,
whose squared roughness is clamped below: `α_used = max(0.001, roughness²)`
before entering the GGX formula.  Used only to compare the claim with
the source. -/
def distributionGGX_claimClamped (N H : Vec3) (roughness : ℝ) : ℝ :=
  (max 0.001 (roughness * roughness)) * (max 0.001 (roughness * roughness)) /
    max
      (3.14159265359 *
        ((max (Vec3.dot N H) 0 * max (Vec3.dot N H) 0) *
          ((max 0.001 (roughness * roughness)) *
            (max 0.001 (roughness * roughness)) - 1) + 1) *
        ((max (Vec3.dot N H) 0 * max (Vec3.dot N H) 0) *
          ((max 0.001 (roughness * roughness)) *
            (max 0.001 (roughness * roughness)) - 1) + 1))
      0.0001

/-- `geometrySchlickGGX` (`src/js/camera.js` lines 765-771):
`k = (roughness + 1)^2 / 8` computed from the roughness argument. -/
def geometrySchlickGGX (NdotV roughness : ℝ) : ℝ :=
  NdotV / (NdotV * (1 - (roughness + 1) * (roughness + 1) / 8) +
    (roughness + 1) * (roughness + 1) / 8)

/-- `geometrySmith` (`src/js/camera.js` lines 786-792). -/
def geometrySmith (N V L : Vec3) (roughness : ℝ) : ℝ :=
  geometrySchlickGGX (max (Vec3.dot N V) 0) roughness *
    geometrySchlickGGX (max (Vec3.dot N L) 0) roughness

/-- Diffuse coefficient of the second path (`src/js/camera.js` line 952):
`kD = (vec3(1.0) - kS) * (1.0 - uMetallic)`. -/
def kD (kS : Vec3) (uMetallic : ℝ) : Vec3 :=
  (Vec3.splat 1 - kS) * Vec3.splat (1 - uMetallic)

/-- `calculateLight` (`src/js/camera.js` lines 801-836); the two `out`
parameters become the returned pair `(L, attenuation)`. -/
def calculateLight (uLightType : ℤ) (uLightPosition uLightDirection : Vec3)
    (uSpotAngle uSpotSoftness : ℝ) (uAreaSize : ℝ × ℝ)
    (vWorldPosition : Vec3) : Vec3 × ℝ :=
  if uLightType = 0 then
    let lightVec := uLightPosition - vWorldPosition
    let dist := Vec3.length lightVec
    (Vec3.normalize lightVec, 1 / (dist * dist))
  else if uLightType = 1 then
    (Vec3.normalize (-uLightDirection), 1)
  else if uLightType = 2 then
    let lightVec := uLightPosition - vWorldPosition
    let dist := Vec3.length lightVec
    let L := Vec3.normalize lightVec
    let theta := Vec3.dot L (Vec3.normalize (-uLightDirection))
    let innerCone := Real.cos (uSpotAngle * 0.5)
    let outerCone := Real.cos (uSpotAngle * 0.5 + uSpotSoftness)
    (L, smoothstep outerCone innerCone theta / (dist * dist))
  else
    let lightVec := uLightPosition - vWorldPosition
    let dist := Vec3.length lightVec
    let area := uAreaSize.1 * uAreaSize.2
    (Vec3.normalize lightVec, area / (dist * dist + area))

/-- `calculateShadow` (`src/js/camera.js` lines 847-879).  The depth
texture becomes the function argument `shadowMap`, and the reciprocal
texture size `1.0 / vec2(textureSize(uShadowMap, 0))` becomes the
argument `texelSize`.  The 5x5 PCF loop is the nested fold over the
offsets `-2..2`, accumulating `currentDepth - bias > pcfDepth ? 0 : 1`. -/
def calculateShadow (uShadowEnabled : ℤ) (uShadowBias : ℝ)
    (shadowMap : ℝ → ℝ → ℝ) (texelSize : ℝ × ℝ) (lightSpacePos : Vec4)
    (N L : Vec3) : ℝ :=
  if uShadowEnabled = 0 then 1
  else
    let px := lightSpacePos.x / lightSpacePos.w * 0.5 + 0.5
    let py := lightSpacePos.y / lightSpacePos.w * 0.5 + 0.5
    let pz := lightSpacePos.z / lightSpacePos.w * 0.5 + 0.5
    if 1 < pz ∨ px < 0 ∨ 1 < px ∨ py < 0 ∨ 1 < py then 1
    else
      let currentDepth := pz
      let bias := max (uShadowBias * (1 - Vec3.dot N L)) (uShadowBias * 0.1)
      let shadow := ([-2, -1, 0, 1, 2] : List ℤ).foldl (fun acc (xo : ℤ) =>
        ([-2, -1, 0, 1, 2] : List ℤ).foldl (fun acc2 (yo : ℤ) =>
          acc2 +
            (if currentDepth - bias >
                shadowMap (px + (xo : ℝ) * texelSize.1)
                  (py + (yo : ℝ) * texelSize.2)
              then (0 : ℝ) else 1)) acc) (0 : ℝ)
      shadow / 25

/-- The PCF factor as the claim describes it: 1/25 times the sum, over
the 5x5 neighborhood of one-texel offsets around the projected
coordinate `(px, py)`, of the indicator that `currentDepth - bias`
does not exceed the sampled depth. -/
def pcfClaimFactor (shadowMap : ℝ → ℝ → ℝ) (texelSize : ℝ × ℝ)
    (px py currentDepth bias : ℝ) : ℝ :=
  (1 / 25) *
    ∑ o ∈ Finset.Icc (-2 : ℤ) 2 ×ˢ Finset.Icc (-2 : ℤ) 2,
      (if currentDepth - bias ≤
          shadowMap (px + (o.1 : ℝ) * texelSize.1)
            (py + (o.2 : ℝ) * texelSize.2)
        then (1 : ℝ) else 0)

/-- The direct outgoing radiance `Lo` computed by `main` of the second
path (`src/js/camera.js` lines 898-964, steps 1-9).  `radiance` and
`shadow` are the values produced by `calculateLight` and
`calculateShadow`; `N`, `V`, `L` are the shading vectors of step 1. -/
def Lo (uAlbedo : Vec3) (uRoughness uMetallic : ℝ)
    (N V L radiance : Vec3) (shadow : ℝ) : Vec3 :=
  let H := Vec3.normalize (V + L)
  let F0 := mixV (Vec3.splat 0.04) uAlbedo uMetallic
  let D := distributionGGX N H uRoughness
  let G := geometrySmith N V L uRoughness
  let F := fresnelSchlick (max (Vec3.dot H V) 0) F0
  let NdotV := max (Vec3.dot N V) 0
  let NdotL := max (Vec3.dot N L) 0
  let specular := ((D * G) • F) / (4 * NdotV * NdotL + 0.0001)
  let kDv := kD F uMetallic
  let diffuse := (kDv * uAlbedo) / (3.14159265359 : ℝ)
  (NdotL * shadow) • ((diffuse + specular) * radiance)

end FragmentShaderSource

/-!
## Planar shadow matrix: `buildShadowMatrix` in `src/js/renderer.js`
-/

namespace Renderer

/-- `dot = a*lx + b*ly + c*lz + d*lw` (`src/js/renderer.js` line 48),
with the light `l = (lx, ly, lz, lw)` and the plane `p = (a, b, c, d)`. -/
def planeDot (l p : Fin 4 → ℝ) : ℝ :=
  p 0 * l 0 + p 1 * l 1 + p 2 * l 2 + p 3 * l 3

/-- `buildShadowMatrix` (`src/js/renderer.js` lines 43-84).  The source
fills a column-major array `m`; entry `m[4*j + i]` of the source is row
`i`, column `j` here, so each row below collects
`(m[i], m[4+i], m[8+i], m[12+i])`. -/
def buildShadowMatrix (l p : Fin 4 → ℝ) : Matrix (Fin 4) (Fin 4) ℝ :=
  !![planeDot l p - l 0 * p 0, -(l 0 * p 1), -(l 0 * p 2), -(l 0 * p 3);
     -(l 1 * p 0), planeDot l p - l 1 * p 1, -(l 1 * p 2), -(l 1 * p 3);
     -(l 2 * p 0), -(l 2 * p 1), planeDot l p - l 2 * p 2, -(l 2 * p 3);
     -(l 3 * p 0), -(l 3 * p 1), -(l 3 * p 2), planeDot l p - l 3 * p 3]

end Renderer

/-!
## Basic lemmas about the vector embedding
-/

namespace Vec3

@[simp] theorem zero_x : (0 : Vec3).x = 0 := rfl
@[simp] theorem zero_y : (0 : Vec3).y = 0 := rfl
@[simp] theorem zero_z : (0 : Vec3).z = 0 := rfl
@[simp] theorem add_x (a b : Vec3) : (a + b).x = a.x + b.x := rfl
@[simp] theorem add_y (a b : Vec3) : (a + b).y = a.y + b.y := rfl
@[simp] theorem add_z (a b : Vec3) : (a + b).z = a.z + b.z := rfl
@[simp] theorem neg_x (a : Vec3) : (-a).x = -a.x := rfl
@[simp] theorem neg_y (a : Vec3) : (-a).y = -a.y := rfl
@[simp] theorem neg_z (a : Vec3) : (-a).z = -a.z := rfl
@[simp] theorem sub_x (a b : Vec3) : (a - b).x = a.x - b.x := rfl
@[simp] theorem sub_y (a b : Vec3) : (a - b).y = a.y - b.y := rfl
@[simp] theorem sub_z (a b : Vec3) : (a - b).z = a.z - b.z := rfl
@[simp] theorem mul_x (a b : Vec3) : (a * b).x = a.x * b.x := rfl
@[simp] theorem mul_y (a b : Vec3) : (a * b).y = a.y * b.y := rfl
@[simp] theorem mul_z (a b : Vec3) : (a * b).z = a.z * b.z := rfl
@[simp] theorem smul_x (r : ℝ) (a : Vec3) : (r • a).x = r * a.x := rfl
@[simp] theorem smul_y (r : ℝ) (a : Vec3) : (r • a).y = r * a.y := rfl
@[simp] theorem smul_z (r : ℝ) (a : Vec3) : (r • a).z = r * a.z := rfl
@[simp] theorem div_x (a : Vec3) (s : ℝ) : (a / s).x = a.x / s := rfl
@[simp] theorem div_y (a : Vec3) (s : ℝ) : (a / s).y = a.y / s := rfl
@[simp] theorem div_z (a : Vec3) (s : ℝ) : (a / s).z = a.z / s := rfl
@[simp] theorem splat_x (s : ℝ) : (splat s).x = s := rfl
@[simp] theorem splat_y (s : ℝ) : (splat s).y = s := rfl
@[simp] theorem splat_z (s : ℝ) : (splat s).z = s := rfl

theorem dot_comm (a b : Vec3) : dot a b = dot b a := by
  unfold dot; ring

theorem dot_cross_left (a b : Vec3) : dot (cross a b) a = 0 := by
  simp only [dot, cross]; ring

theorem dot_cross_right (a b : Vec3) : dot (cross a b) b = 0 := by
  simp only [dot, cross]; ring

/-- Lagrange identity for the squared norm of a cross product. -/
theorem cross_dot_self (a b : Vec3) :
    dot (cross a b) (cross a b) = dot a a * dot b b - dot a b * dot a b := by
  simp only [dot, cross]; ring

theorem normalize_self_dot (v : Vec3) (h : 0 < dot v v) :
    dot (normalize v) (normalize v) = 1 := by
  have hmul : Real.sqrt (dot v v) * Real.sqrt (dot v v) = dot v v :=
    Real.mul_self_sqrt h.le
  have hkey : dot (normalize v) (normalize v) =
      dot v v / (Real.sqrt (dot v v) * Real.sqrt (dot v v)) := by
    simp only [normalize, length, dot, div_x, div_y, div_z]
    ring
  rw [hkey, hmul, div_self h.ne']

theorem normalize_dot (v w : Vec3) : dot (normalize v) w = dot v w / length v := by
  simp only [normalize, length, dot, div_x, div_y, div_z]
  ring

end Vec3

theorem clampR_nonneg (x : ℝ) : 0 ≤ clampR x 0 1 :=
  le_min (le_max_right x 0) one_pos.le

theorem clampR_le_one (x : ℝ) : clampR x 0 1 ≤ 1 := min_le_right _ _

theorem clampR_of_nonpos {x : ℝ} (h : x ≤ 0) : clampR x 0 1 = 0 := by
  unfold clampR
  rw [max_eq_right h]
  exact min_eq_left one_pos.le

/-!
## Lemmas about `smoothstep`
-/

theorem smoothstep_of_le {e0 e1 x : ℝ} (he : e0 < e1) (hx : x ≤ e0) :
    smoothstep e0 e1 x = 0 := by
  have hq : (x - e0) / (e1 - e0) ≤ 0 :=
    div_nonpos_iff.mpr (Or.inr ⟨by linarith, by linarith⟩)
  unfold smoothstep
  rw [clampR_of_nonpos hq]
  ring

theorem smoothstep_of_ge {e0 e1 x : ℝ} (he : e0 < e1) (hx : e1 ≤ x) :
    smoothstep e0 e1 x = 1 := by
  have hq : (1 : ℝ) ≤ (x - e0) / (e1 - e0) :=
    (one_le_div (by linarith)).mpr (by linarith)
  unfold smoothstep clampR
  rw [max_eq_left (le_trans one_pos.le hq), min_eq_right hq]
  ring

theorem hermite_mono {t1 t2 : ℝ} (h0 : 0 ≤ t1) (h12 : t1 ≤ t2) (h1 : t2 ≤ 1) :
    t1 * t1 * (3 - 2 * t1) ≤ t2 * t2 * (3 - 2 * t2) := by
  have p1 : 0 ≤ t1 * (1 - t1) := mul_nonneg h0 (by linarith)
  have p2 : 0 ≤ t2 * (1 - t2) := mul_nonneg (h0.trans h12) (by linarith)
  have p3 : 0 ≤ t1 * (1 - t2) := mul_nonneg h0 (by linarith)
  have p4 : 0 ≤ t2 * (1 - t1) := mul_nonneg (h0.trans h12) (by linarith)
  have hd : 0 ≤ t2 - t1 := by linarith
  nlinarith [mul_nonneg hd p1, mul_nonneg hd p2, mul_nonneg hd p3,
    mul_nonneg hd p4]

theorem smoothstep_mono {e0 e1 x1 x2 : ℝ} (he : e0 < e1) (hx : x1 ≤ x2) :
    smoothstep e0 e1 x1 ≤ smoothstep e0 e1 x2 := by
  have hq : (x1 - e0) / (e1 - e0) ≤ (x2 - e0) / (e1 - e0) :=
    div_le_div_of_nonneg_right (by linarith) (by linarith)
  unfold smoothstep
  exact hermite_mono (clampR_nonneg _)
    (min_le_min (max_le_max hq le_rfl) le_rfl) (clampR_le_one _)

/-!
## C7: the planar shadow matrix
-/

/-- C7: `buildShadowMatrix(L, P)` has entries
`M[i][j] = dot*δ(i,j) - L[i]*P[j]` with `dot = P·L`; consequently every
homogeneous point `X` on the plane (`P·X = 0`) is mapped to `dot • X`
(the same point up to homogeneous scale), and the light's own
homogeneous coordinate is mapped to a vector with `w`-component `0`. -/
theorem C7_shadow_matrix (l p : Fin 4 → ℝ) :
    (∀ i j, Renderer.buildShadowMatrix l p i j =
      Renderer.planeDot l p * (if i = j then 1 else 0) - l i * p j) ∧
    (∀ X : Fin 4 → ℝ, Renderer.planeDot X p = 0 →
      (Renderer.buildShadowMatrix l p).mulVec X = Renderer.planeDot l p • X) ∧
    (Renderer.buildShadowMatrix l p).mulVec l 3 = 0 := by
  refine ⟨?_, ?_, ?_⟩
  · intro i j
    fin_cases i <;> fin_cases j <;>
      simp [Renderer.buildShadowMatrix, Renderer.planeDot]
  · intro X hX
    unfold Renderer.planeDot at hX
    funext i
    fin_cases i
    · simp [Matrix.mulVec, Matrix.dotProduct, Fin.sum_univ_four,
        Renderer.buildShadowMatrix, Renderer.planeDot]
      linear_combination (-(l 0)) * hX
    · simp [Matrix.mulVec, Matrix.dotProduct, Fin.sum_univ_four,
        Renderer.buildShadowMatrix, Renderer.planeDot]
      linear_combination (-(l 1)) * hX
    · simp [Matrix.mulVec, Matrix.dotProduct, Fin.sum_univ_four,
        Renderer.buildShadowMatrix, Renderer.planeDot]
      linear_combination (-(l 2)) * hX
    · simp [Matrix.mulVec, Matrix.dotProduct, Fin.sum_univ_four,
        Renderer.buildShadowMatrix, Renderer.planeDot]
      linear_combination (-(l 3)) * hX
  · simp [Matrix.mulVec, Matrix.dotProduct, Fin.sum_univ_four,
      Renderer.buildShadowMatrix, Renderer.planeDot]
    ring

/-- Witness for C7 at a concrete light `(0,2,0,1)`, plane `y = 0` and
on-plane point `(1,0,3,1)`. -/
theorem C7_shadow_matrix_witness :
    Renderer.planeDot ![1, 0, 3, 1] ![0, 1, 0, 0] = 0 ∧
    (Renderer.buildShadowMatrix ![0, 2, 0, 1] ![0, 1, 0, 0]).mulVec
        ![1, 0, 3, 1] =
      Renderer.planeDot ![0, 2, 0, 1] ![0, 1, 0, 0] • ![1, 0, 3, 1] :=
  ⟨by norm_num [Renderer.planeDot],
    (C7_shadow_matrix ![0, 2, 0, 1] ![0, 1, 0, 0]).2.1 ![1, 0, 3, 1]
      (by norm_num [Renderer.planeDot])⟩

/-!
## C9: energy conservation of the diffuse/specular split
-/

theorem energy_channel {f m : ℝ} (hf0 : 0 ≤ f) (hf1 : f ≤ 1) (hm0 : 0 ≤ m)
    (hm1 : m ≤ 1) :
    f + (1 - f) * (1 - m) = 1 - m * (1 - f) ∧
    0 ≤ 1 - m * (1 - f) ∧ 1 - m * (1 - f) ≤ 1 :=
  ⟨by ring, by nlinarith, by nlinarith⟩

/-- C9 counterexample: with the in-range inputs `F = (0.04, 0.04, 0.04)`
and `metallic = 1`, the per-channel sum `kS + kD` computed by both
shaders is `0.04`, not `1`. -/
theorem C9_energy_counterexample :
    ((0 : ℝ) ≤ 0.04 ∧ (0.04 : ℝ) ≤ 1 ∧ (0 : ℝ) ≤ 1 ∧ (1 : ℝ) ≤ 1) ∧
    (Vec3.splat 0.04 + FragmentShader.kD (Vec3.splat 0.04) 1).x = 0.04 ∧
    (Vec3.splat 0.04 + FragmentShaderSource.kD (Vec3.splat 0.04) 1).x = 0.04 ∧
    (0.04 : ℝ) ≠ 1 := by
  refine ⟨by norm_num, ?_, ?_, by norm_num⟩ <;>
    norm_num [FragmentShader.kD, FragmentShaderSource.kD, Vec3.splat]

/-- C9 (amended): with `kS = F` and `kD = (1-kS)*(1-metallic)` as both
shaders compute them, the per-channel sum is `kD + kS = 1 - metallic*(1-F)`,
which lies in `[0, 1]` for `F ∈ [0,1]^3` and `metallic ∈ [0,1]` and equals
`1` exactly in the non-metallic case `metallic = 0` (the two shaders'
`kD` definitions coincide). -/
theorem C9_energy_amended (F : Vec3) (m : ℝ) (hF : InRange01 F) (hm0 : 0 ≤ m)
    (hm1 : m ≤ 1) :
    ((F + FragmentShader.kD F m).x = 1 - m * (1 - F.x) ∧
      (F + FragmentShader.kD F m).y = 1 - m * (1 - F.y) ∧
      (F + FragmentShader.kD F m).z = 1 - m * (1 - F.z)) ∧
    (0 ≤ (F + FragmentShader.kD F m).x ∧ (F + FragmentShader.kD F m).x ≤ 1 ∧
      0 ≤ (F + FragmentShader.kD F m).y ∧ (F + FragmentShader.kD F m).y ≤ 1 ∧
      0 ≤ (F + FragmentShader.kD F m).z ∧ (F + FragmentShader.kD F m).z ≤ 1) ∧
    (m = 0 → F + FragmentShader.kD F m = Vec3.splat 1) ∧
    FragmentShaderSource.kD F m = FragmentShader.kD F m := by
  obtain ⟨hx0, hx1, hy0, hy1, hz0, hz1⟩ := hF
  have ex := energy_channel hx0 hx1 hm0 hm1
  have ey := energy_channel hy0 hy1 hm0 hm1
  have ez := energy_channel hz0 hz1 hm0 hm1
  refine ⟨⟨?_, ?_, ?_⟩, ⟨?_, ?_, ?_, ?_, ?_, ?_⟩, ?_, rfl⟩
  · simp [FragmentShader.kD]; linarith [ex.1]
  · simp [FragmentShader.kD]; linarith [ey.1]
  · simp [FragmentShader.kD]; linarith [ez.1]
  · simp [FragmentShader.kD]; nlinarith
  · simp [FragmentShader.kD]; nlinarith
  · simp [FragmentShader.kD]; nlinarith
  · simp [FragmentShader.kD]; nlinarith
  · simp [FragmentShader.kD]; nlinarith
  · simp [FragmentShader.kD]; nlinarith
  · intro hm
    subst hm
    ext <;> simp [FragmentShader.kD]

/-- Witness for C9 (amended) at `F = (1/2, 1/2, 1/2)`, `metallic = 1/2`. -/
theorem C9_energy_amended_witness :
    InRange01 (Vec3.splat (1 / 2)) ∧
    (Vec3.splat (1 / 2) +
        FragmentShader.kD (Vec3.splat (1 / 2)) (1 / 2)).x =
      1 - (1 / 2) * (1 - (Vec3.splat (1 / 2)).x) :=
  ⟨by norm_num [InRange01, Vec3.splat],
    ((C9_energy_amended (Vec3.splat (1 / 2)) (1 / 2)
      (by norm_num [InRange01, Vec3.splat]) (by norm_num) (by norm_num)).1).1⟩

/-!
## C2: which roughness enters the Smith remap
-/

/-- C2 (code bug): at `roughness = 1/2` and `NdotV = NdotL = 1/2`,
the geometry factor computed by the main-path shader — `evaluateBRDF`
passes `alpha = max(0.001, roughness*roughness)` as the third argument
of `G_Smith`, so the remap is `k = (alpha+1)^2/8` — differs from the
documented remap `k = (roughness+1)^2/8` computed from the material
roughness (which is what `geometrySmith` of the second path uses). -/
theorem C2_geometry_remap_uses_alpha :
    FragmentShader.G_Smith (1 / 2) (1 / 2) (max 0.001 ((1 / 2) * (1 / 2))) =
      16384 / 23409 ∧
    FragmentShader.G_SchlickGGX (1 / 2) (((1 / 2) + 1) * ((1 / 2) + 1) / 8) *
        FragmentShader.G_SchlickGGX (1 / 2)
          (((1 / 2) + 1) * ((1 / 2) + 1) / 8) =
      1024 / 1681 ∧
    (16384 / 23409 : ℝ) ≠ 1024 / 1681 := by
  norm_num [FragmentShader.G_Smith, FragmentShader.G_SchlickGGX, max_def]

/-!
## C3: clamping of the squared roughness before the GGX distribution
-/

/-- C3 counterexample: in the second-path shader, `distributionGGX` is
evaluated with the unclamped `alpha = roughness * roughness`; at
`roughness = 0` (with `N = (0,0,1)`, `H = (1,0,0)`) the distribution is
`0`, whereas the claimed clamped variant `alpha = max(0.001, roughness²)`
would give the nonzero value `1e-6 / 3.14159265359`. -/
theorem C3_alpha_clamp_counterexample :
    FragmentShaderSource.distributionGGX ⟨0, 0, 1⟩ ⟨1, 0, 0⟩ 0 = 0 ∧
    FragmentShaderSource.distributionGGX_claimClamped ⟨0, 0, 1⟩ ⟨1, 0, 0⟩ 0 =
      0.000001 / 3.14159265359 ∧
    (0 : ℝ) ≠ 0.000001 / 3.14159265359 := by
  refine ⟨?_, ?_, by norm_num⟩ <;>
    norm_num [FragmentShaderSource.distributionGGX,
      FragmentShaderSource.distributionGGX_div,
      FragmentShaderSource.distributionGGX_claimClamped, Vec3.dot, max_def]

/-- C3 (amended): the main-path shader does clamp the squared roughness
(`alpha = max(0.001, roughness²) ≥ 0.001` before `D_GGX`); the
second-path shader uses the unclamped `roughness²`, but in both paths
the divisor of the GGX distribution is clamped to at least `1e-4`, so
the division never divides by zero. -/
theorem C3_alpha_clamp_amended :
    (∀ r : ℝ, 0.001 ≤ max 0.001 (r * r)) ∧
    (∀ NdotH alpha : ℝ, 0 < FragmentShader.D_GGX_div NdotH alpha) ∧
    (∀ (N H : Vec3) (r : ℝ), 0 < FragmentShaderSource.distributionGGX_div N H r) :=
  ⟨fun _ => le_max_left _ _,
    fun _ _ => lt_of_lt_of_le (by norm_num) (le_max_left _ _),
    fun _ _ _ => lt_of_lt_of_le (by norm_num) (le_max_right _ _)⟩

/-!
## C5: out-of-frustum shadow lookups are fully lit
-/

/-- C5: whenever the light-space position projects (after perspective
divide and the `[0,1]` remap) outside `[0,1]` in x or y, or beyond
`z = 1`, `calculateShadow` returns exactly `1`, regardless of the
depth-map contents, `N`, `L` and the bias setting. -/
theorem C5_out_of_frustum_lit (uShadowEnabled : ℤ) (uShadowBias : ℝ)
    (shadowMap : ℝ → ℝ → ℝ) (texelSize : ℝ × ℝ) (lsp : Vec4) (N L : Vec3)
    (h : 1 < lsp.z / lsp.w * 0.5 + 0.5 ∨ lsp.x / lsp.w * 0.5 + 0.5 < 0 ∨
      1 < lsp.x / lsp.w * 0.5 + 0.5 ∨ lsp.y / lsp.w * 0.5 + 0.5 < 0 ∨
      1 < lsp.y / lsp.w * 0.5 + 0.5) :
    FragmentShaderSource.calculateShadow uShadowEnabled uShadowBias shadowMap
      texelSize lsp N L = 1 := by
  unfold FragmentShaderSource.calculateShadow
  by_cases he : uShadowEnabled = 0
  · rw [if_pos he]
  · rw [if_neg he, if_pos h]

/-- Witness for C5 at the synthetic light-space position `(2, 0, 0, 1)`,
which projects to `(1.5, 0.5, 0.5)`. -/
theorem C5_out_of_frustum_lit_witness :
    (1 < (Vec4.mk 2 0 0 1).x / (Vec4.mk 2 0 0 1).w * 0.5 + 0.5) ∧
    FragmentShaderSource.calculateShadow 1 0 (fun _ _ => 0) (1, 1)
      (Vec4.mk 2 0 0 1) ⟨0, 0, 1⟩ ⟨0, 0, 1⟩ = 1 :=
  ⟨by norm_num,
    C5_out_of_frustum_lit 1 0 (fun _ _ => 0) (1, 1) (Vec4.mk 2 0 0 1)
      ⟨0, 0, 1⟩ ⟨0, 0, 1⟩ (by right; right; left; norm_num)⟩

/-!
## C8: spot-light cone-edge attenuation
-/

/-- C8 counterexample: in the main-path shader, `uSpotAngle` is itself
the cutoff cosine and the softness is added in cosine space, so a
direction strictly inside the claimed inner cutoff need not receive the
full factor `1`: with `uSpotAngle = 1/2` (the cosine of the half angle)
and `uSpotSoftness = 2/5`, the direction `L = (4/5, 0, 3/5)` towards a
spot pointing along `dir = (0,0,-1)` has `cosTheta = 3/5 > 1/2`, yet
`spotAttenuation` returns `5/32`, not `1`. -/
theorem C8_spot_cutoff_counterexample :
    Vec3.dot (Vec3.normalize (-(Vec3.mk 0 0 (-1)))) ⟨4 / 5, 0, 3 / 5⟩ = 3 / 5 ∧
    (1 / 2 : ℝ) < 3 / 5 ∧
    FragmentShader.spotAttenuation (1 / 2) (2 / 5) ⟨4 / 5, 0, 3 / 5⟩
      (Vec3.mk 0 0 (-1)) = 5 / 32 ∧
    (5 / 32 : ℝ) ≠ 1 := by
  have hn : Vec3.normalize (-(Vec3.mk 0 0 (-1))) = Vec3.mk 0 0 1 := by
    ext <;> norm_num [Vec3.normalize, Vec3.length, Vec3.dot, Real.sqrt_one]
  have hdot : Vec3.dot (Vec3.normalize (-(Vec3.mk 0 0 (-1))))
      ⟨4 / 5, 0, 3 / 5⟩ = 3 / 5 := by
    rw [hn]; norm_num [Vec3.dot]
  refine ⟨hdot, by norm_num, ?_, by norm_num⟩
  unfold FragmentShader.spotAttenuation
  rw [hdot]
  unfold smoothstep clampR
  norm_num

/-- C8 (amended): in the second-path shader the cone factor is
`smoothstep(cos(half+softness), cos(half), cosTheta)` with
`half = uSpotAngle*0.5`: it is `0` at or outside the outer cutoff, `1`
at or inside the inner cutoff, monotone in `cosTheta` in between, and it
multiplies the inverse-square attenuation `1/dist²`.  In the main-path
shader the uniform `uSpotAngle` is itself the cutoff cosine and the
softness is added in cosine space: the factor is `0` for
`cosTheta ≤ uSpotAngle` and `1` for `cosTheta ≥ uSpotAngle + softness`,
monotone in between. -/
theorem C8_spot_cutoff_amended (uSpotAngle uSpotSoftness e soft : ℝ)
    (hs : 0 < uSpotSoftness) (h0 : 0 ≤ uSpotAngle * 0.5)
    (hpi : uSpotAngle * 0.5 + uSpotSoftness ≤ Real.pi) (hsoft : 0 < soft) :
    (Real.cos (uSpotAngle * 0.5 + uSpotSoftness) <
      Real.cos (uSpotAngle * 0.5)) ∧
    (∀ θ : ℝ, θ ≤ Real.cos (uSpotAngle * 0.5 + uSpotSoftness) →
      smoothstep (Real.cos (uSpotAngle * 0.5 + uSpotSoftness))
        (Real.cos (uSpotAngle * 0.5)) θ = 0) ∧
    (∀ θ : ℝ, Real.cos (uSpotAngle * 0.5) ≤ θ →
      smoothstep (Real.cos (uSpotAngle * 0.5 + uSpotSoftness))
        (Real.cos (uSpotAngle * 0.5)) θ = 1) ∧
    (∀ θ1 θ2 : ℝ, θ1 ≤ θ2 →
      smoothstep (Real.cos (uSpotAngle * 0.5 + uSpotSoftness))
        (Real.cos (uSpotAngle * 0.5)) θ1 ≤
      smoothstep (Real.cos (uSpotAngle * 0.5 + uSpotSoftness))
        (Real.cos (uSpotAngle * 0.5)) θ2) ∧
    (∀ (pos dir : Vec3) (sz : ℝ × ℝ) (world : Vec3),
      (FragmentShaderSource.calculateLight 2 pos dir uSpotAngle uSpotSoftness
        sz world).2 =
      smoothstep (Real.cos (uSpotAngle * 0.5 + uSpotSoftness))
        (Real.cos (uSpotAngle * 0.5))
        (Vec3.dot (Vec3.normalize (pos - world)) (Vec3.normalize (-dir))) /
        (Vec3.length (pos - world) * Vec3.length (pos - world))) ∧
    (∀ L dir : Vec3, Vec3.dot (Vec3.normalize (-dir)) L ≤ e →
      FragmentShader.spotAttenuation e soft L dir = 0) ∧
    (∀ L dir : Vec3, e + soft ≤ Vec3.dot (Vec3.normalize (-dir)) L →
      FragmentShader.spotAttenuation e soft L dir = 1) ∧
    (∀ L1 L2 dir : Vec3,
      Vec3.dot (Vec3.normalize (-dir)) L1 ≤
        Vec3.dot (Vec3.normalize (-dir)) L2 →
      FragmentShader.spotAttenuation e soft L1 dir ≤
        FragmentShader.spotAttenuation e soft L2 dir) := by
  have hlt : Real.cos (uSpotAngle * 0.5 + uSpotSoftness) <
      Real.cos (uSpotAngle * 0.5) :=
    Real.cos_lt_cos_of_nonneg_of_le_pi h0 hpi (by linarith)
  have hee : e < e + soft := by linarith
  refine ⟨hlt, fun θ hθ => smoothstep_of_le hlt hθ,
    fun θ hθ => smoothstep_of_ge hlt hθ,
    fun θ1 θ2 h12 => smoothstep_mono hlt h12, ?_, ?_, ?_, ?_⟩
  · intro pos dir sz world
    norm_num [FragmentShaderSource.calculateLight]
  · intro L dir hθ
    exact smoothstep_of_le hee hθ
  · intro L dir hθ
    exact smoothstep_of_ge hee hθ
  · intro L1 L2 dir h12
    exact smoothstep_mono hee h12

/-- Witness for C8 (amended) at `uSpotAngle = 2π/3`, softness `π/6`
(so the inner cutoff is `cos(π/3)` and the outer `cos(π/2)`), and at
the main-path edge `1/2` with softness `2/5`. -/
theorem C8_spot_cutoff_amended_witness :
    (0 : ℝ) < Real.pi / 6 ∧
    smoothstep (Real.cos (Real.pi * (2 / 3) * 0.5 + Real.pi / 6))
      (Real.cos (Real.pi * (2 / 3) * 0.5)) (-1) = 0 :=
  ⟨by positivity,
    (C8_spot_cutoff_amended (Real.pi * (2 / 3)) (Real.pi / 6) (1 / 2) (2 / 5)
      (by positivity) (by positivity) (by linarith [Real.pi_pos])
      (by norm_num)).2.1 (-1) (Real.neg_one_le_cos _)⟩

/-!
## C10: the tangent basis construction
-/

theorem basis_pair_ortho (n up : Vec3) (hn : Vec3.dot n n = 1)
    (hc : 0 < Vec3.dot (Vec3.cross up n) (Vec3.cross up n)) :
    Vec3.dot (Vec3.normalize (Vec3.cross up n))
        (Vec3.normalize (Vec3.cross up n)) = 1 ∧
    Vec3.dot (Vec3.cross n (Vec3.normalize (Vec3.cross up n)))
        (Vec3.cross n (Vec3.normalize (Vec3.cross up n))) = 1 ∧
    Vec3.dot (Vec3.normalize (Vec3.cross up n)) n = 0 ∧
    Vec3.dot (Vec3.cross n (Vec3.normalize (Vec3.cross up n))) n = 0 ∧
    Vec3.dot (Vec3.normalize (Vec3.cross up n))
        (Vec3.cross n (Vec3.normalize (Vec3.cross up n))) = 0 := by
  set t := Vec3.normalize (Vec3.cross up n) with ht
  have h1 : Vec3.dot t t = 1 := Vec3.normalize_self_dot _ hc
  have h3 : Vec3.dot t n = 0 := by
    rw [ht, Vec3.normalize_dot, Vec3.dot_cross_right, zero_div]
  have h4 : Vec3.dot (Vec3.cross n t) n = 0 := Vec3.dot_cross_left n t
  have h5 : Vec3.dot t (Vec3.cross n t) = 0 := by
    rw [Vec3.dot_comm]; exact Vec3.dot_cross_right n t
  have h2 : Vec3.dot (Vec3.cross n t) (Vec3.cross n t) = 1 := by
    rw [Vec3.cross_dot_self, hn, h1, Vec3.dot_comm n t, h3]; ring
  exact ⟨h1, h2, h3, h4, h5⟩

/-- C10: for every unit `n` (i.e. `dot n n = 1`), the pair `(t, b)`
returned by `basisFromDir` satisfies, over exact real arithmetic,
`|t| = |b| = 1` and `t·n = b·n = t·b = 0`: with `n` it forms an
orthonormal triple. -/
theorem C10_basis_orthonormal (n : Vec3) (hn : Vec3.dot n n = 1) :
    Vec3.dot (FragmentShader.basisFromDir n).1 (FragmentShader.basisFromDir n).1 = 1 ∧
    Vec3.dot (FragmentShader.basisFromDir n).2 (FragmentShader.basisFromDir n).2 = 1 ∧
    Vec3.dot (FragmentShader.basisFromDir n).1 n = 0 ∧
    Vec3.dot (FragmentShader.basisFromDir n).2 n = 0 ∧
    Vec3.dot (FragmentShader.basisFromDir n).1 (FragmentShader.basisFromDir n).2 = 0 := by
  have hsq : n.x * n.x + n.y * n.y + n.z * n.z = 1 := by
    simpa [Vec3.dot] using hn
  simp only [FragmentShader.basisFromDir]
  by_cases h : |n.y| < 0.999
  · rw [if_pos h]
    have hy2 : n.y * n.y < 1 := by
      have habs := abs_lt.mp h
      nlinarith
    refine basis_pair_ortho n ⟨0, 1, 0⟩ hn ?_
    simp only [Vec3.cross, Vec3.dot]
    nlinarith
  · rw [if_neg h]
    have hy2 : (0.999 : ℝ) * 0.999 ≤ n.y * n.y := by
      have habs := not_lt.mp h
      nlinarith [abs_nonneg n.y, sq_abs n.y, sq_nonneg n.y]
    refine basis_pair_ortho n ⟨1, 0, 0⟩ hn ?_
    simp only [Vec3.cross, Vec3.dot]
    nlinarith

/-- Witness for C10 at the unit vector `n = (0, 0, 1)`. -/
theorem C10_basis_orthonormal_witness :
    Vec3.dot ⟨0, 0, 1⟩ ⟨0, 0, 1⟩ = 1 ∧
    Vec3.dot (FragmentShader.basisFromDir ⟨0, 0, 1⟩).1
      (FragmentShader.basisFromDir ⟨0, 0, 1⟩).1 = 1 :=
  ⟨by norm_num [Vec3.dot],
    (C10_basis_orthonormal ⟨0, 0, 1⟩ (by norm_num [Vec3.dot])).1⟩

/-!
## C1: non-negativity of the direct lighting, zero on back-facing lights
-/

theorem nonnegV_add {a b : Vec3} (ha : NonnegV a) (hb : NonnegV b) :
    NonnegV (a + b) :=
  ⟨by simpa using add_nonneg ha.1 hb.1, by simpa using add_nonneg ha.2.1 hb.2.1,
    by simpa using add_nonneg ha.2.2 hb.2.2⟩

theorem nonnegV_mul {a b : Vec3} (ha : NonnegV a) (hb : NonnegV b) :
    NonnegV (a * b) :=
  ⟨by simpa using mul_nonneg ha.1 hb.1, by simpa using mul_nonneg ha.2.1 hb.2.1,
    by simpa using mul_nonneg ha.2.2 hb.2.2⟩

theorem nonnegV_smul {r : ℝ} {a : Vec3} (hr : 0 ≤ r) (ha : NonnegV a) :
    NonnegV (r • a) :=
  ⟨by simpa using mul_nonneg hr ha.1, by simpa using mul_nonneg hr ha.2.1,
    by simpa using mul_nonneg hr ha.2.2⟩

theorem nonnegV_divS {a : Vec3} {s : ℝ} (ha : NonnegV a) (hs : 0 ≤ s) :
    NonnegV (a / s) :=
  ⟨by simpa using div_nonneg ha.1 hs, by simpa using div_nonneg ha.2.1 hs,
    by simpa using div_nonneg ha.2.2 hs⟩

theorem inRange01_nonneg {v : Vec3} (h : InRange01 v) : NonnegV v :=
  ⟨h.1, h.2.2.1, h.2.2.2.2.1⟩

/-- One Fresnel-Schlick channel stays in `[0, 1]`. -/
theorem fresnel_channel {f0 t : ℝ} (h0 : 0 ≤ f0) (h1 : f0 ≤ 1) (ht0 : 0 ≤ t)
    (ht1 : t ≤ 1) : 0 ≤ f0 + t * (1 - f0) ∧ f0 + t * (1 - f0) ≤ 1 :=
  ⟨by nlinarith, by nlinarith⟩

/-- The base reflectance `F0 = mix(vec3(0.04), albedo, metallic)` is in
`[0, 1]^3` for in-range albedo and metallic. -/
theorem mixV_F0_mem {albedo : Vec3} {m : ℝ} (ha : InRange01 albedo)
    (hm0 : 0 ≤ m) (hm1 : m ≤ 1) :
    InRange01 (mixV (Vec3.splat 0.04) albedo m) := by
  obtain ⟨hx0, hx1, hy0, hy1, hz0, hz1⟩ := ha
  refine ⟨?_, ?_, ?_, ?_, ?_, ?_⟩ <;> simp [mixV] <;> nlinarith

/-- The Fresnel-Schlick output is in `[0, 1]^3` whenever `F0` is and the
interpolation weight `t` is in `[0, 1]`; both shader paths instantiate
`t` with a fifth power lying in `[0, 1]`. -/
theorem fresnelSchlick_mem {F0 : Vec3} {t : ℝ} (hF0 : InRange01 F0)
    (ht0 : 0 ≤ t) (ht1 : t ≤ 1) : InRange01 (F0 + t • (Vec3.splat 1 - F0)) := by
  obtain ⟨hx0, hx1, hy0, hy1, hz0, hz1⟩ := hF0
  have ex := fresnel_channel hx0 hx1 ht0 ht1
  have ey := fresnel_channel hy0 hy1 ht0 ht1
  have ez := fresnel_channel hz0 hz1 ht0 ht1
  refine ⟨?_, ?_, ?_, ?_, ?_, ?_⟩ <;> simp <;> nlinarith
    [ex.1, ex.2, ey.1, ey.2, ez.1, ez.2]

/-- `kD = (1 - kS) * (1 - metallic)` is non-negative whenever the
Fresnel factor is in `[0, 1]^3` and `metallic ≤ 1`; shared shape of the
two shaders' `kD`. -/
theorem kD_nonneg {F : Vec3} {m : ℝ} (hF : InRange01 F) (hm1 : m ≤ 1) :
    NonnegV (FragmentShader.kD F m) := by
  obtain ⟨hx0, hx1, hy0, hy1, hz0, hz1⟩ := hF
  refine ⟨?_, ?_, ?_⟩ <;> simp [FragmentShader.kD] <;> nlinarith

theorem D_GGX_nonneg (NdotH alpha : ℝ) : 0 ≤ FragmentShader.D_GGX NdotH alpha :=
  div_nonneg (mul_self_nonneg _)
    (le_trans (by norm_num) (le_max_left 0.0001 _))

theorem distributionGGX_nonneg (N H : Vec3) (r : ℝ) :
    0 ≤ FragmentShaderSource.distributionGGX N H r :=
  div_nonneg (mul_nonneg (mul_self_nonneg _) (mul_self_nonneg _))
    (le_trans (by norm_num) (le_max_right _ 0.0001))

/-- A Schlick-GGX quotient `x / (x*(1-k) + k)` is non-negative for
`0 ≤ x` and `0 < k ≤ 1`. -/
theorem schlickGGX_quotient_nonneg {x k : ℝ} (hx : 0 ≤ x) (hk0 : 0 < k)
    (hk1 : k ≤ 1) : 0 ≤ x / (x * (1 - k) + k) :=
  div_nonneg hx (by nlinarith)

/-- The direct-lighting remap `k = (a+1)^2/8` lies in `(0, 1]` for
`a ∈ [0, 1]` (both `roughness` and the clamped `alpha` qualify). -/
theorem remap_k_mem {a : ℝ} (h0 : 0 ≤ a) (h1 : a ≤ 1) :
    0 < (a + 1) * (a + 1) / 8 ∧ (a + 1) * (a + 1) / 8 ≤ 1 :=
  ⟨by nlinarith, by nlinarith⟩

theorem G_Smith_nonneg {nv nl a : ℝ} (hv : 0 ≤ nv) (hl : 0 ≤ nl) (h0 : 0 ≤ a)
    (h1 : a ≤ 1) : 0 ≤ FragmentShader.G_Smith nv nl a := by
  obtain ⟨hk0, hk1⟩ := remap_k_mem h0 h1
  exact mul_nonneg (schlickGGX_quotient_nonneg hv hk0 hk1)
    (schlickGGX_quotient_nonneg hl hk0 hk1)

theorem geometrySmith_nonneg (N V L : Vec3) {r : ℝ} (h0 : 0 ≤ r) (h1 : r ≤ 1) :
    0 ≤ FragmentShaderSource.geometrySmith N V L r := by
  obtain ⟨hk0, hk1⟩ := remap_k_mem h0 h1
  exact mul_nonneg
    (schlickGGX_quotient_nonneg (le_max_right _ 0) hk0 hk1)
    (schlickGGX_quotient_nonneg (le_max_right _ 0) hk0 hk1)

/-- The clamped `alpha = max(0.001, roughness²)` lies in `[0, 1]` for
roughness in `[0, 1]`. -/
theorem alpha_mem {r : ℝ} (h0 : 0 ≤ r) (h1 : r ≤ 1) :
    0 ≤ max 0.001 (r * r) ∧ max 0.001 (r * r) ≤ 1 :=
  ⟨le_trans (by norm_num) (le_max_left _ _),
    max_le (by norm_num) (by nlinarith)⟩

theorem kDSource_nonneg {F : Vec3} {m : ℝ} (hF : InRange01 F) (hm1 : m ≤ 1) :
    NonnegV (FragmentShaderSource.kD F m) := by
  obtain ⟨hx0, hx1, hy0, hy1, hz0, hz1⟩ := hF
  refine ⟨?_, ?_, ?_⟩ <;> simp [FragmentShaderSource.kD] <;> nlinarith

theorem evaluateBRDF_nonneg (uAlbedo : Vec3) (uMetallic uRoughness : ℝ)
    (N V L radiance : Vec3) (ha : InRange01 uAlbedo) (hm0 : 0 ≤ uMetallic)
    (hm1 : uMetallic ≤ 1) (hr0 : 0 ≤ uRoughness) (hr1 : uRoughness ≤ 1)
    (hrad : NonnegV radiance) :
    NonnegV (FragmentShader.evaluateBRDF uAlbedo uMetallic uRoughness N V L
      radiance) := by
  have hF0 : InRange01 (mixV (Vec3.splat 0.04) uAlbedo uMetallic) :=
    mixV_F0_mem ha hm0 hm1
  have hF : ∀ c : ℝ, InRange01 (FragmentShader.fresnelSchlick (clampR c 0 1)
      (mixV (Vec3.splat 0.04) uAlbedo uMetallic)) := by
    intro c
    unfold FragmentShader.fresnelSchlick
    exact fresnelSchlick_mem hF0
      (pow_nonneg (by linarith [clampR_le_one c]) 5)
      (pow_le_one₀ (by linarith [clampR_le_one c])
        (by linarith [clampR_nonneg c]))
  simp only [FragmentShader.evaluateBRDF]
  apply nonnegV_smul (clampR_nonneg _)
  apply nonnegV_mul _ hrad
  apply nonnegV_add
  · exact nonnegV_divS
      (nonnegV_mul (kD_nonneg (hF _) hm1) (inRange01_nonneg ha)) (by norm_num)
  · refine nonnegV_divS ?_ (le_trans (by norm_num) (le_max_left 0.001 _))
    exact nonnegV_smul
      (mul_nonneg (D_GGX_nonneg _ _)
        (G_Smith_nonneg (clampR_nonneg _) (clampR_nonneg _)
          (alpha_mem hr0 hr1).1 (alpha_mem hr0 hr1).2))
      (inRange01_nonneg (hF _))

theorem Lo_nonneg (uAlbedo : Vec3) (uRoughness uMetallic : ℝ)
    (N V L radiance : Vec3) (shadow : ℝ) (ha : InRange01 uAlbedo)
    (hm0 : 0 ≤ uMetallic) (hm1 : uMetallic ≤ 1) (hr0 : 0 ≤ uRoughness)
    (hr1 : uRoughness ≤ 1) (hrad : NonnegV radiance) (hsh : 0 ≤ shadow) :
    NonnegV (FragmentShaderSource.Lo uAlbedo uRoughness uMetallic N V L
      radiance shadow) := by
  have hF0 : InRange01 (mixV (Vec3.splat 0.04) uAlbedo uMetallic) :=
    mixV_F0_mem ha hm0 hm1
  have hF : ∀ c : ℝ, InRange01 (FragmentShaderSource.fresnelSchlick c
      (mixV (Vec3.splat 0.04) uAlbedo uMetallic)) := by
    intro c
    unfold FragmentShaderSource.fresnelSchlick
    exact fresnelSchlick_mem hF0 (pow_nonneg (clampR_nonneg _) 5)
      (pow_le_one₀ (clampR_nonneg _) (clampR_le_one _))
  have hden : (0 : ℝ) ≤ 4 * max (Vec3.dot N V) 0 * max (Vec3.dot N L) 0
      + 0.0001 := by positivity
  simp only [FragmentShaderSource.Lo]
  apply nonnegV_smul (mul_nonneg (le_max_right _ 0) hsh)
  apply nonnegV_mul _ hrad
  apply nonnegV_add
  · exact nonnegV_divS
      (nonnegV_mul (kDSource_nonneg (hF _) hm1) (inRange01_nonneg ha))
      (by norm_num)
  · refine nonnegV_divS ?_ hden
    exact nonnegV_smul
      (mul_nonneg (distributionGGX_nonneg _ _ _)
        (geometrySmith_nonneg _ _ _ hr0 hr1))
      (inRange01_nonneg (hF _))

theorem evaluateBRDF_backface (uAlbedo : Vec3) (uMetallic uRoughness : ℝ)
    (N V L radiance : Vec3) (h : Vec3.dot N L ≤ 0) :
    FragmentShader.evaluateBRDF uAlbedo uMetallic uRoughness N V L
      radiance = 0 := by
  simp only [FragmentShader.evaluateBRDF]
  rw [clampR_of_nonpos h, zero_smul]

theorem Lo_backface (uAlbedo : Vec3) (uRoughness uMetallic : ℝ)
    (N V L radiance : Vec3) (shadow : ℝ) (h : Vec3.dot N L ≤ 0) :
    FragmentShaderSource.Lo uAlbedo uRoughness uMetallic N V L radiance
      shadow = 0 := by
  simp only [FragmentShaderSource.Lo]
  rw [max_eq_right h, zero_mul, zero_smul]

/-- C1: both per-fragment direct-lighting evaluations — `evaluateBRDF`
of the main path and the `Lo` computation of the second path — produce
only non-negative RGB components for in-range material parameters and
non-negative incoming radiance (over the exact-real embedding every
value is automatically finite, and the divisors involved are clamped
positive, cf. `C3_alpha_clamp_amended`), and the direct contribution is
exactly `0` whenever `dot(N, L) ≤ 0`. -/
theorem C1_direct_lighting_nonneg_and_backface_zero (uAlbedo : Vec3)
    (uMetallic uRoughness : ℝ) (N V L radiance : Vec3) (shadow : ℝ)
    (ha : InRange01 uAlbedo) (hm0 : 0 ≤ uMetallic) (hm1 : uMetallic ≤ 1)
    (hr0 : 0 ≤ uRoughness) (hr1 : uRoughness ≤ 1) (hrad : NonnegV radiance)
    (hsh : 0 ≤ shadow) :
    (NonnegV (FragmentShader.evaluateBRDF uAlbedo uMetallic uRoughness N V L
        radiance) ∧
      (Vec3.dot N L ≤ 0 →
        FragmentShader.evaluateBRDF uAlbedo uMetallic uRoughness N V L
          radiance = 0)) ∧
    (NonnegV (FragmentShaderSource.Lo uAlbedo uRoughness uMetallic N V L
        radiance shadow) ∧
      (Vec3.dot N L ≤ 0 →
        FragmentShaderSource.Lo uAlbedo uRoughness uMetallic N V L radiance
          shadow = 0)) :=
  ⟨⟨evaluateBRDF_nonneg uAlbedo uMetallic uRoughness N V L radiance ha hm0 hm1
      hr0 hr1 hrad,
    fun h => evaluateBRDF_backface uAlbedo uMetallic uRoughness N V L
      radiance h⟩,
    ⟨Lo_nonneg uAlbedo uRoughness uMetallic N V L radiance shadow ha hm0 hm1
      hr0 hr1 hrad hsh,
    fun h => Lo_backface uAlbedo uRoughness uMetallic N V L radiance shadow h⟩⟩

/-- Witness for C1 at concrete in-range inputs. -/
theorem C1_direct_lighting_witness :
    InRange01 (Vec3.splat (1 / 2)) ∧ NonnegV (Vec3.splat 1) ∧
    NonnegV (FragmentShader.evaluateBRDF (Vec3.splat (1 / 2)) (1 / 2) (1 / 2)
      ⟨0, 0, 1⟩ ⟨0, 0, 1⟩ ⟨0, 0, 1⟩ (Vec3.splat 1)) :=
  ⟨by norm_num [InRange01, Vec3.splat], by norm_num [NonnegV, Vec3.splat],
    ((C1_direct_lighting_nonneg_and_backface_zero (Vec3.splat (1 / 2)) (1 / 2)
      (1 / 2) ⟨0, 0, 1⟩ ⟨0, 0, 1⟩ ⟨0, 0, 1⟩ (Vec3.splat 1) 1
      (by norm_num [InRange01, Vec3.splat]) (by norm_num) (by norm_num)
      (by norm_num) (by norm_num) (by norm_num [NonnegV, Vec3.splat])
      (by norm_num)).1).1⟩

/-!
## C4: area-light sampling
-/

theorem foldl_add_eq_sum {M : Type} [AddCommMonoid M] (f : ℕ → M) :
    ∀ (n : ℕ) (a : M),
      (List.range n).foldl (fun acc i => acc + f i) a =
        a + ∑ i ∈ Finset.range n, f i := by
  intro n
  induction n with
  | zero => intro a; simp
  | succ n ih =>
      intro a
      rw [List.range_succ, List.foldl_append, ih, Finset.sum_range_succ]
      simp [add_assoc]

theorem divS_eq_smul (v : Vec3) (s : ℝ) : v / s = (1 / s) • v := by
  ext <;>
    simp only [Vec3.div_x, Vec3.div_y, Vec3.div_z, Vec3.smul_x, Vec3.smul_y,
      Vec3.smul_z] <;>
    ring

/-- The 8x8 area-light accumulation loop equals the double sum of its
per-sample terms, averaged by `1/64`. -/
theorem areaLightResult_eq_sum (uLightPos uLightDir uLightColor : Vec3)
    (uLightIntensity : ℝ) (uAreaSize : ℝ × ℝ) (uAlbedo : Vec3)
    (uMetallic uRoughness : ℝ) (vWorldPos N V : Vec3) :
    FragmentShader.areaLightResult uLightPos uLightDir uLightColor
      uLightIntensity uAreaSize uAlbedo uMetallic uRoughness vWorldPos N V =
    (1 / 64 : ℝ) •
      ∑ ix ∈ Finset.range 8, ∑ iy ∈ Finset.range 8,
        FragmentShader.areaSampleTerm uLightPos uLightColor uLightIntensity
          uAreaSize uAlbedo uMetallic uRoughness vWorldPos N V
          (Vec3.normalize (-uLightDir))
          (FragmentShader.basisFromDir (Vec3.normalize (-uLightDir))).1
          (FragmentShader.basisFromDir (Vec3.normalize (-uLightDir))).2
          ix iy := by
  unfold FragmentShader.areaLightResult
  simp only [foldl_add_eq_sum, zero_add]
  rw [divS_eq_smul]

/-- C4 (amended): in the main-path shader the area-light radiance is the
unweighted average — the accumulated sum divided by the sample count 64
— over the fixed 8x8 grid of sample points spanning the half-width ×
half-height extent in the tangent basis built from the emission
direction, and any sample whose `cosTheta` is `≤ 0` contributes zero;
the second-path shader instead approximates the area light by a single
sample at the light centre with attenuation `area / (dist² + area)`. -/
theorem C4_area_grid_average_amended (uLightPos uLightDir uLightColor : Vec3)
    (uLightIntensity : ℝ) (uAreaSize : ℝ × ℝ) (uAlbedo : Vec3)
    (uMetallic uRoughness : ℝ) (vWorldPos N V : Vec3) :
    (FragmentShader.areaLightResult uLightPos uLightDir uLightColor
        uLightIntensity uAreaSize uAlbedo uMetallic uRoughness vWorldPos N V =
      (1 / 64 : ℝ) •
        ∑ ix ∈ Finset.range 8, ∑ iy ∈ Finset.range 8,
          FragmentShader.areaSampleTerm uLightPos uLightColor uLightIntensity
            uAreaSize uAlbedo uMetallic uRoughness vWorldPos N V
            (Vec3.normalize (-uLightDir))
            (FragmentShader.basisFromDir (Vec3.normalize (-uLightDir))).1
            (FragmentShader.basisFromDir (Vec3.normalize (-uLightDir))).2
            ix iy) ∧
    (∀ (lightNormal t b : Vec3) (ix iy : ℕ),
      Vec3.dot lightNormal
          (-((uLightPos + ((((ix : ℝ) / 7) * 2 - 1) * (uAreaSize.1 * 0.5)) • t +
              ((((iy : ℝ) / 7) * 2 - 1) * (uAreaSize.2 * 0.5)) • b -
              vWorldPos) /
            max 0.001
              (Vec3.length
                (uLightPos +
                  ((((ix : ℝ) / 7) * 2 - 1) * (uAreaSize.1 * 0.5)) • t +
                  ((((iy : ℝ) / 7) * 2 - 1) * (uAreaSize.2 * 0.5)) • b -
                  vWorldPos)))) ≤ 0 →
      FragmentShader.areaSampleTerm uLightPos uLightColor uLightIntensity
        uAreaSize uAlbedo uMetallic uRoughness vWorldPos N V lightNormal t b
        ix iy = 0) ∧
    (∀ (pos dir : Vec3) (sA sS : ℝ) (sz : ℝ × ℝ) (world : Vec3),
      (FragmentShaderSource.calculateLight 3 pos dir sA sS sz world).2 =
        sz.1 * sz.2 /
          (Vec3.length (pos - world) * Vec3.length (pos - world) +
            sz.1 * sz.2)) := by
  refine ⟨areaLightResult_eq_sum uLightPos uLightDir uLightColor
    uLightIntensity uAreaSize uAlbedo uMetallic uRoughness vWorldPos N V,
    ?_, ?_⟩
  · intro lightNormal t b ix iy h
    simp only [FragmentShader.areaSampleTerm]
    exact if_neg (not_lt.mpr h)
  · intro pos dir sA sS sz world
    norm_num [FragmentShaderSource.calculateLight]

/-- Witness for C4 (amended): the loop/average identity instantiated at
a concrete scene. -/
theorem C4_area_grid_average_amended_witness :
    FragmentShader.areaLightResult ⟨0, 0, 2⟩ ⟨0, 0, -1⟩ ⟨1, 1, 1⟩ 1 (1, 1)
      ⟨1, 1, 1⟩ 0 1 ⟨0, 0, 0⟩ ⟨0, 0, 1⟩ ⟨0, 0, 1⟩ =
    (1 / 64 : ℝ) •
      ∑ ix ∈ Finset.range 8, ∑ iy ∈ Finset.range 8,
        FragmentShader.areaSampleTerm ⟨0, 0, 2⟩ ⟨1, 1, 1⟩ 1 (1, 1) ⟨1, 1, 1⟩
          0 1 ⟨0, 0, 0⟩ ⟨0, 0, 1⟩ ⟨0, 0, 1⟩
          (Vec3.normalize (-(⟨0, 0, -1⟩ : Vec3)))
          (FragmentShader.basisFromDir
            (Vec3.normalize (-(⟨0, 0, -1⟩ : Vec3)))).1
          (FragmentShader.basisFromDir
            (Vec3.normalize (-(⟨0, 0, -1⟩ : Vec3)))).2 ix iy :=
  (C4_area_grid_average_amended ⟨0, 0, 2⟩ ⟨0, 0, -1⟩ ⟨1, 1, 1⟩ 1 (1, 1)
    ⟨1, 1, 1⟩ 0 1 ⟨0, 0, 0⟩ ⟨0, 0, 1⟩ ⟨0, 0, 1⟩).1

/-- C4 counterexample: the grid-average property does not hold in both
rendering paths.  With the light at `(0,0,2)` emitting along
`(0,0,-1)`, a `1×1` rectangle and the surface point at the origin,
every grid sample of the main path is rejected (`cosTheta < 0`), so the
claimed grid average is `0`; yet the second-path shader's area-light
attenuation at the same scene is `1/5 ≠ 0`. -/
theorem C4_area_both_paths_counterexample :
    FragmentShader.areaLightResult ⟨0, 0, 2⟩ ⟨0, 0, -1⟩ ⟨1, 1, 1⟩ 1 (1, 1)
      ⟨1, 1, 1⟩ 0 1 ⟨0, 0, 0⟩ ⟨0, 0, 1⟩ ⟨0, 0, 1⟩ = 0 ∧
    (FragmentShaderSource.calculateLight 3 ⟨0, 0, 2⟩ ⟨0, 0, -1⟩ 0 0 (1, 1)
      ⟨0, 0, 0⟩).2 = 1 / 5 ∧
    (1 / 5 : ℝ) ≠ 0 := by
  have hn : Vec3.normalize (-(⟨0, 0, -1⟩ : Vec3)) = ⟨0, 0, 1⟩ := by
    ext <;> norm_num [Vec3.normalize, Vec3.length, Vec3.dot, Real.sqrt_one]
  have hc1 : Vec3.cross ⟨0, 1, 0⟩ ⟨0, 0, 1⟩ = (⟨1, 0, 0⟩ : Vec3) := by
    ext <;> norm_num [Vec3.cross]
  have hnorm1 : Vec3.normalize (⟨1, 0, 0⟩ : Vec3) = ⟨1, 0, 0⟩ := by
    ext <;> norm_num [Vec3.normalize, Vec3.length, Vec3.dot, Real.sqrt_one]
  have hc2 : Vec3.cross ⟨0, 0, 1⟩ (⟨1, 0, 0⟩ : Vec3) = ⟨0, 1, 0⟩ := by
    ext <;> norm_num [Vec3.cross]
  have hb : FragmentShader.basisFromDir ⟨0, 0, 1⟩ =
      ((⟨1, 0, 0⟩ : Vec3), (⟨0, 1, 0⟩ : Vec3)) := by
    unfold FragmentShader.basisFromDir
    rw [if_pos (by norm_num : |(Vec3.mk 0 0 1).y| < 0.999)]
    simp only [hc1, hnorm1, hc2]
  have hz : ∀ ix iy : ℕ,
      FragmentShader.areaSampleTerm ⟨0, 0, 2⟩ ⟨1, 1, 1⟩ 1 (1, 1) ⟨1, 1, 1⟩ 0 1
        ⟨0, 0, 0⟩ ⟨0, 0, 1⟩ ⟨0, 0, 1⟩ ⟨0, 0, 1⟩ ⟨1, 0, 0⟩ ⟨0, 1, 0⟩ ix iy =
        0 := by
    intro ix iy
    simp only [FragmentShader.areaSampleTerm]
    apply if_neg
    rw [not_lt]
    simp only [Vec3.dot, Vec3.neg_x, Vec3.neg_y, Vec3.neg_z, Vec3.div_x,
      Vec3.div_y, Vec3.div_z, Vec3.add_x, Vec3.add_y, Vec3.add_z, Vec3.sub_x,
      Vec3.sub_y, Vec3.sub_z, Vec3.smul_x, Vec3.smul_y, Vec3.smul_z]
    norm_num
    apply div_nonneg (by norm_num : (0 : ℝ) ≤ 2)
    exact le_trans (by norm_num) (le_max_left _ _)
  refine ⟨?_, ?_, by norm_num⟩
  · rw [areaLightResult_eq_sum]
    simp only [hn, hb]
    rw [Finset.sum_eq_zero fun ix _ => Finset.sum_eq_zero fun iy _ => hz ix iy,
      smul_zero]
  · have h4 : Vec3.length ((⟨0, 0, 2⟩ : Vec3) - ⟨0, 0, 0⟩) = 2 := by
      simp only [Vec3.length, Vec3.dot, Vec3.sub_x, Vec3.sub_y, Vec3.sub_z]
      norm_num
      rw [show (4 : ℝ) = 2 ^ 2 by norm_num, Real.sqrt_sq (by norm_num : (0:ℝ) ≤ 2)]
    norm_num [FragmentShaderSource.calculateLight, h4]

/-!
## C6: the PCF shadow factor
-/

theorem pcf_fold_eq_sum (f : ℤ → ℤ → ℝ) :
    ([-2, -1, 0, 1, 2] : List ℤ).foldl (fun acc xo =>
      ([-2, -1, 0, 1, 2] : List ℤ).foldl (fun acc2 yo => acc2 + f xo yo) acc)
      0 =
    ∑ o ∈ Finset.Icc (-2 : ℤ) 2 ×ˢ Finset.Icc (-2 : ℤ) 2, f o.1 o.2 := by
  have hI : Finset.Icc (-2 : ℤ) 2 = {-2, -1, 0, 1, 2} := by decide
  rw [Finset.sum_product, hI]
  norm_num [List.foldl, Finset.sum_insert, Finset.mem_insert]
  ring

theorem indicator_swap (a b : ℝ) :
    (if a > b then (0 : ℝ) else 1) = if a ≤ b then (1 : ℝ) else 0 := by
  by_cases h : a ≤ b
  · rw [if_neg (not_lt.mpr h), if_pos h]
  · rw [if_pos (lt_of_not_le h), if_neg h]

theorem pcf_offsets_card :
    (Finset.Icc (-2 : ℤ) 2 ×ˢ Finset.Icc (-2 : ℤ) 2).card = 25 := by
  decide


theorem pcfClaimFactor_bounds (shadowMap : ℝ → ℝ → ℝ) (texelSize : ℝ × ℝ)
    (px py cd bias : ℝ) :
    0 ≤ FragmentShaderSource.pcfClaimFactor shadowMap texelSize px py cd
        bias ∧
    FragmentShaderSource.pcfClaimFactor shadowMap texelSize px py cd
        bias ≤ 1 := by
  unfold FragmentShaderSource.pcfClaimFactor
  constructor
  · exact mul_nonneg (by norm_num)
      (Finset.sum_nonneg fun o _ => by split <;> norm_num)
  · have hle := Finset.sum_le_card_nsmul
      (Finset.Icc (-2 : ℤ) 2 ×ˢ Finset.Icc (-2 : ℤ) 2)
      (fun o : ℤ × ℤ =>
        if cd - bias ≤
            shadowMap (px + (o.1 : ℝ) * texelSize.1)
              (py + (o.2 : ℝ) * texelSize.2)
          then (1 : ℝ) else 0)
      1 (fun o _ => by dsimp only; split <;> norm_num)
    rw [pcf_offsets_card, nsmul_eq_mul] at hle
    push_cast at hle
    linarith

theorem pcfClaimFactor_all_lit (shadowMap : ℝ → ℝ → ℝ) (texelSize : ℝ × ℝ)
    (px py cd bias : ℝ)
    (h : ∀ xo ∈ Finset.Icc (-2 : ℤ) 2, ∀ yo ∈ Finset.Icc (-2 : ℤ) 2,
      cd - bias ≤
        shadowMap (px + (xo : ℝ) * texelSize.1)
          (py + (yo : ℝ) * texelSize.2)) :
    FragmentShaderSource.pcfClaimFactor shadowMap texelSize px py cd
      bias = 1 := by
  unfold FragmentShaderSource.pcfClaimFactor
  rw [Finset.sum_congr rfl fun o ho =>
    if_pos (h o.1 (Finset.mem_product.mp ho).1 o.2
      (Finset.mem_product.mp ho).2)]
  rw [Finset.sum_const, pcf_offsets_card, nsmul_eq_mul]
  norm_num

/-- C6: for in-bounds projected coordinates (shadows enabled), the PCF
shadow factor equals `1/25` times the sum over the 5×5 neighborhood of
one-texel offsets of the indicator that `currentDepth - bias` does not
exceed the sampled depth, with the slope-scaled bias
`max(uShadowBias*(1 - dot(N,L)), 0.1*uShadowBias)`; consequently the
factor lies in `[0, 1]`, and it equals exactly `1` when no tap is
occluded. -/
theorem C6_pcf_factor (uShadowBias : ℝ) (shadowMap : ℝ → ℝ → ℝ)
    (texelSize : ℝ × ℝ) (lsp : Vec4) (N L : Vec3) (uShadowEnabled : ℤ)
    (hen : uShadowEnabled ≠ 0)
    (hin : ¬(1 < lsp.z / lsp.w * 0.5 + 0.5 ∨ lsp.x / lsp.w * 0.5 + 0.5 < 0 ∨
      1 < lsp.x / lsp.w * 0.5 + 0.5 ∨ lsp.y / lsp.w * 0.5 + 0.5 < 0 ∨
      1 < lsp.y / lsp.w * 0.5 + 0.5)) :
    FragmentShaderSource.calculateShadow uShadowEnabled uShadowBias shadowMap
        texelSize lsp N L =
      FragmentShaderSource.pcfClaimFactor shadowMap texelSize
        (lsp.x / lsp.w * 0.5 + 0.5) (lsp.y / lsp.w * 0.5 + 0.5)
        (lsp.z / lsp.w * 0.5 + 0.5)
        (max (uShadowBias * (1 - Vec3.dot N L)) (0.1 * uShadowBias)) ∧
    0 ≤ FragmentShaderSource.calculateShadow uShadowEnabled uShadowBias
        shadowMap texelSize lsp N L ∧
    FragmentShaderSource.calculateShadow uShadowEnabled uShadowBias shadowMap
        texelSize lsp N L ≤ 1 ∧
    ((∀ xo ∈ Finset.Icc (-2 : ℤ) 2, ∀ yo ∈ Finset.Icc (-2 : ℤ) 2,
        lsp.z / lsp.w * 0.5 + 0.5 -
            max (uShadowBias * (1 - Vec3.dot N L)) (0.1 * uShadowBias) ≤
          shadowMap (lsp.x / lsp.w * 0.5 + 0.5 + (xo : ℝ) * texelSize.1)
            (lsp.y / lsp.w * 0.5 + 0.5 + (yo : ℝ) * texelSize.2)) →
      FragmentShaderSource.calculateShadow uShadowEnabled uShadowBias
        shadowMap texelSize lsp N L = 1) := by
  have hbias : (0.1 : ℝ) * uShadowBias = uShadowBias * 0.1 := mul_comm _ _
  have hcs : FragmentShaderSource.calculateShadow uShadowEnabled uShadowBias
      shadowMap texelSize lsp N L =
      FragmentShaderSource.pcfClaimFactor shadowMap texelSize
        (lsp.x / lsp.w * 0.5 + 0.5) (lsp.y / lsp.w * 0.5 + 0.5)
        (lsp.z / lsp.w * 0.5 + 0.5)
        (max (uShadowBias * (1 - Vec3.dot N L)) (0.1 * uShadowBias)) := by
    unfold FragmentShaderSource.calculateShadow
      FragmentShaderSource.pcfClaimFactor
    rw [if_neg hen, if_neg hin]
    simp only [pcf_fold_eq_sum, indicator_swap, hbias]
    ring
  refine ⟨hcs, ?_, ?_, ?_⟩
  · rw [hcs]
    exact (pcfClaimFactor_bounds _ _ _ _ _ _).1
  · rw [hcs]
    exact (pcfClaimFactor_bounds _ _ _ _ _ _).2
  · intro hall
    rw [hcs]
    exact pcfClaimFactor_all_lit _ _ _ _ _ _ hall

/-- Witness for C6: shadows enabled, an in-bounds projection
`(0.5, 0.5, 0.5)` and a depth map that is everywhere `1`, so that no
tap is occluded and the factor is exactly `1`. -/
theorem C6_pcf_factor_witness :
    (1 : ℤ) ≠ 0 ∧
    FragmentShaderSource.calculateShadow 1 0 (fun _ _ => 1) (1, 1)
      (Vec4.mk 0 0 0 1) ⟨0, 0, 1⟩ ⟨0, 0, 1⟩ = 1 :=
  ⟨by norm_num,
    (C6_pcf_factor 0 (fun _ _ => 1) (1, 1) (Vec4.mk 0 0 0 1) ⟨0, 0, 1⟩
      ⟨0, 0, 1⟩ 1 (by norm_num) (by norm_num)).2.2.2
      (fun xo _ yo _ => by norm_num [Vec3.dot])⟩
